import Mathlib

/-!
Shallow embedding of the Conversation Timeline Compiler worker
(`processConversation` and its helpers).  JavaScript strings are modelled as
Lean `String`s; all string operations are re-implemented by structural
recursion over the underlying character list so that every definition
evaluates inside the kernel.  JavaScript floating-point dollar amounts are
modelled as exact fractions (`JNum`); the token counts involved keep every
amount exactly representable, so the idealization is faithful for all values
the theorems touch.  Timestamp strings are modelled by their JS
`Date.parse` result: `some ms`, or `none` for an unparseable string (NaN).
-/

/-- One suffix per position, plus the empty suffix (the positions a JS regex
engine scans). -/
def tailsOf : List Char → List (List Char)
  | [] => [[]]
  | c :: rest => (c :: rest) :: tailsOf rest

/-- JS whitespace (the ASCII part of `\s` and of `String.prototype.trim`):
tab, LF, VT, FF, CR, space. -/
def jsWhitespace (c : Char) : Bool :=
  c = ' ' || c = '\t' || c = '\n' || c = '\r' || c.toNat = 11 || c.toNat = 12

/-- `String.prototype.trim` (ASCII whitespace scope). -/
def jsTrim (s : String) : String :=
  String.mk (((s.data.dropWhile jsWhitespace).reverse.dropWhile jsWhitespace).reverse)

/-- `String.prototype.toLowerCase` (ASCII scope, which `Char.toLower` matches). -/
def jsToLower (s : String) : String :=
  String.mk (s.data.map Char.toLower)

/-- `String.prototype.includes`: substring test. -/
def jsIncludes (s sub : String) : Bool :=
  (tailsOf s.data).any (fun t => sub.data.isPrefixOf t)

/-- `String.prototype.substring(0, n)` (or `take`). -/
def jsTake (s : String) (n : Nat) : String :=
  String.mk (s.data.take n)

/-- `String.prototype.substring(n)` (or `drop`). -/
def jsDrop (s : String) (n : Nat) : String :=
  String.mk (s.data.drop n)

/-- `String.prototype.startsWith`. -/
def jsStartsWith (s p : String) : Bool :=
  p.data.isPrefixOf s.data

/-- `String.prototype.split(c)` on a one-character separator. -/
def splitOnChar (c : Char) : List Char → List (List Char)
  | [] => [[]]
  | x :: rest =>
    if x = c then [] :: splitOnChar c rest
    else
      match splitOnChar c rest with
      | h :: t => (x :: h) :: t
      | [] => [[x]]

/-- `Array.prototype.join(sep)`. -/
def joinSep (sep : String) : List String → String
  | [] => ""
  | [x] => x
  | x :: y :: xs => x ++ sep ++ joinSep sep (y :: xs)

/-- Concatenation of per-element lists, in order (iteration over a JS `Map`
with an inner loop over each value). -/
def flatMapList (f : α → List β) : List α → List β
  | [] => []
  | a :: as => f a ++ flatMapList f as

/-- Left-to-right, non-overlapping global replacement, as
`String.prototype.replace(/pat/g, repl)` for a plain non-empty pattern.
Fuelled by the input length, which suffices since each step consumes at
least one character. -/
def replaceAllAux (pat repl : List Char) : Nat → List Char → List Char
  | 0, l => l
  | _ + 1, [] => []
  | fuel + 1, x :: rest =>
    if pat.isPrefixOf (x :: rest) && !pat.isEmpty then
      repl ++ replaceAllAux pat repl fuel ((x :: rest).drop pat.length)
    else x :: replaceAllAux pat repl fuel rest

/-- String-level wrapper for `replaceAllAux`. -/
def jsReplaceAll (s pat repl : String) : String :=
  String.mk (replaceAllAux pat.data repl.data s.data.length s.data)

/-- Collapse every maximal run of whitespace into one space:
`str.replace(/\s+/g, ' ')`.  The boolean argument records whether the
previous character belonged to a whitespace run. -/
def collapseWsAux : Bool → List Char → List Char
  | _, [] => []
  | prevWs, c :: rest =>
    if jsWhitespace c then
      if prevWs then collapseWsAux true rest
      else ' ' :: collapseWsAux true rest
    else c :: collapseWsAux false rest

/-- A JS number holding a dollar amount, as an exact fraction (numerator and
positive denominator, not normalized).  All amounts the program manipulates
are exactly representable, and the program never branches on an amount, so
exact fractions are a faithful model of the double arithmetic here. -/
structure JNum where
  num : Int
  den : Nat

/-- Embedding of a natural number. -/
def JNum.ofNat (n : Nat) : JNum := ⟨Int.ofNat n, 1⟩

/-- Addition of amounts. -/
def JNum.add (a b : JNum) : JNum :=
  ⟨a.num * Int.ofNat b.den + b.num * Int.ofNat a.den, a.den * b.den⟩

/-- Multiplication of amounts. -/
def JNum.mul (a b : JNum) : JNum := ⟨a.num * b.num, a.den * b.den⟩

/-- Division by a (positive) natural constant, as in `tokens / 1000000`. -/
def JNum.divNat (a : JNum) (m : Nat) : JNum := ⟨a.num, a.den * m⟩

/-- Value equality of two amounts (cross multiplication). -/
def JNum.eqv (a b : JNum) : Prop :=
  a.num * Int.ofNat b.den = b.num * Int.ofNat a.den

/-- `Number.prototype.toFixed(4)` for the nonnegative amounts the program
renders: nearest integer count of 1/10000, ties rounded up, i.e.
`floor(q * 10000 + 1/2)`, then printed with four decimals. -/
def JNum.toFixed4 (q : JNum) : String :=
  let n : Int := (q.num * 20000 + Int.ofNat q.den) / Int.ofNat (2 * q.den)
  let intPart := n / 10000
  let frac := (n % 10000).toNat
  let digits := toString frac
  let pad := String.mk (List.replicate (4 - digits.length) '0')
  toString intPart ++ "." ++ pad ++ digits

/-- A timestamp string from the log, modelled by its JS parse result:
`ms = some v` when `new Date(ts).getTime()` is the integer `v`, and
`ms = none` when the string is unparseable (`getTime()` is NaN).  A value of
this type stands for a present, non-empty (hence truthy) timestamp string;
an absent timestamp is `Option Timestamp`s `none` at the use sites. -/
structure Timestamp where
  ms : Option Int

/-- Token usage carried by an assistant record.  A missing token field
behaves exactly like 0 everywhere the program reads it (both are falsy), so
both are modelled as 0. -/
structure Usage where
  input_tokens : Nat
  output_tokens : Nat

/-- Result payload of a tool_result block: a string, or a structured value
carried together with its `JSON.stringify` serialization. -/
inductive JContent where
  | str (s : String)
  | other (serialized : String)

/-- JS truthiness of a result payload (a structured value is truthy, a
string is truthy iff non-empty; an absent/null payload is `none` at the use
sites). -/
def jContentTruthy : JContent → Bool
  | .str s => s ≠ ""
  | .other _ => true

/-- The string the source reads off a payload:
`typeof content === 'string' ? content : JSON.stringify(content)`. -/
def jContentStr : JContent → String
  | .str s => s
  | .other ser => ser

/-- `getByteSize` applied to a string argument: falsy (empty) gives 0,
otherwise `str.length` (JS UTF-16 length; identical to the code-point count
for the payloads modelled here). -/
def getByteSize (text : String) : Nat := text.length

/-- `getByteSize(result?.content || '')`: 0 for an absent payload, else the
length of the string form. -/
def getByteSizeContent : Option JContent → Nat
  | none => 0
  | some c => getByteSize (jContentStr c)

/-- `formatDuration(start, end)` from the worker, over the two parsed
timestamps.  When either side is unparseable, `diffMs` is NaN: every
comparison with NaN is false in JS, so no guard fires, `Math.floor` and
`Math.round` return NaN, `NaN > 0` is false, and the function returns the
string "NaNm" — the `catch` never fires because nothing throws.
`Math.round(x)` for the nonnegative values reached here is
`floor(x + 1/2)`. -/
def formatDuration (startMs endMs : Option Int) : Option String :=
  match startMs, endMs with
  | some s, some e =>
    let diffMs := e - s
    if diffMs < 0 ∨ diffMs > 3600000 then none
    else if diffMs < 1000 then none
    else if diffMs < 60000 then some (toString ((diffMs + 500) / 1000) ++ "s")
    else
      let minutes := diffMs / 60000
      let seconds := (diffMs % 60000 + 500) / 1000
      if seconds > 0 then some (toString minutes ++ "m" ++ toString seconds ++ "s")
      else some (toString minutes ++ "m")
  | _, _ => some "NaNm"

/-- Pricing tier: dollars per million tokens. -/
structure Pricing where
  input : JNum
  output : JNum

/-- `getModelPricing` from the worker.  `!model` covers an absent model and
the empty string; matching is by case-insensitive substring inclusion.
0.25 and 1.25 are the exact fractions 1/4 and 5/4. -/
def getModelPricing (model : Option String) : Pricing :=
  match model with
  | none => ⟨⟨3, 1⟩, ⟨15, 1⟩⟩
  | some m =>
    if m = "" ∨ m = "unknown" then ⟨⟨3, 1⟩, ⟨15, 1⟩⟩
    else
      let modelLower := jsToLower m
      if jsIncludes modelLower "sonnet-4-5" || jsIncludes modelLower "sonnet-4.5" ||
          jsIncludes modelLower "sonnet-4" then ⟨⟨3, 1⟩, ⟨15, 1⟩⟩
      else if jsIncludes modelLower "sonnet-3-5" || jsIncludes modelLower "sonnet-3.5" ||
          jsIncludes modelLower "sonnet-3" then ⟨⟨3, 1⟩, ⟨15, 1⟩⟩
      else if jsIncludes modelLower "opus" then ⟨⟨15, 1⟩, ⟨75, 1⟩⟩
      else if jsIncludes modelLower "haiku" then ⟨⟨1, 4⟩, ⟨5, 4⟩⟩
      else ⟨⟨3, 1⟩, ⟨15, 1⟩⟩

/-- `calculateCost(inputTokens, outputTokens, model)`:
`(inputTokens / 1000000) * pricing.input + (outputTokens / 1000000) * pricing.output`. -/
def calculateCost (inputTokens outputTokens : Nat) (model : Option String) : JNum :=
  let pricing := getModelPricing model
  let inputCost := ((JNum.ofNat inputTokens).divNat 1000000).mul pricing.input
  let outputCost := ((JNum.ofNat outputTokens).divNat 1000000).mul pricing.output
  inputCost.add outputCost

/-- `truncateUserMessage(text)` with the default `maxLength = 100`:
collapse whitespace runs, trim, and ellipsis-truncate past 100 characters
(`substring(0, 97) + '...'`). -/
def truncateUserMessage (text : String) : String :=
  if text = "" then ""
  else
    let singleLine := jsTrim (String.mk (collapseWsAux false text.data))
    if singleLine.length ≤ 100 then singleLine
    else jsTake singleLine 97 ++ "..."

/-- Input parameter mapping of a tool_use block, modelling the well-typed
inputs the tool protocol produces.  `serialized` carries
`JSON.stringify(tool.input || {})` (the model transports the serialization
rather than recomputing it; it is only read for size labels), and `pairs`
carries `Object.entries` with each value already in its rendered form
(strings verbatim, other values as their `JSON.stringify`). -/
structure ToolInput where
  file_path : Option String := none
  offset : Option Nat := none
  limit : Option Nat := none
  content : Option String := none
  new_string : Option String := none
  command : Option String := none
  subagent_type : Option String := none
  description : Option String := none
  questions : List String := []
  url : Option String := none
  prompt : Option String := none
  query : Option String := none
  serialized : String := "\x7b\x7d"
  pairs : List (String × String) := []

/-- A tool_use content block. -/
structure ToolUse where
  id : String
  name : String
  input : ToolInput

/-- A tool_result content block.  `content = none` covers both an absent and
a null payload (they behave identically at every read). -/
structure ToolResultBlock where
  tool_use_id : String
  content : Option JContent := none
  exit_code : Option Int := none

/-- Content block variants; `other` covers any unrecognized block type. -/
inductive ContentBlock where
  | text (text : String)
  | toolUse (tu : ToolUse)
  | toolResult (tr : ToolResultBlock)
  | thinking
  | other

/-- Whether a block is a tool_use block. -/
def isToolUse : ContentBlock → Bool
  | .toolUse _ => true
  | _ => false

/-- The `message` field of a record. -/
structure Message where
  content : Option (List ContentBlock) := none
  usage : Option Usage := none
  model : Option String := none

/-- One conversation record (a parsed JSONL line). -/
structure Entry where
  type : String
  message : Option Message := none
  timestamp : Option Timestamp := none

/-- A parsed conversation handed to the worker. -/
structure Conv where
  entries : Option (List Entry) := none
  filePath : Option String := none

/-- Worker result for one conversation. -/
structure ConvResult where
  file : String
  timeline : String
  entries : List Entry

/-- `x || d` for an optional string: `d` when absent or empty. -/
def jsOrS (o : Option String) (d : String) : String :=
  match o with
  | some s => if s = "" then d else s
  | none => d

/-- Last path segment: `filepath.includes('/') ? filepath.split('/').pop() : filepath`. -/
def lastPathSegment (filepath : String) : String :=
  if filepath.data.any (fun c => c = '/') then
    String.mk ((splitOnChar '/' filepath.data).getLastD [])
  else filepath

/-- The record produced by the Read/Write/Edit formatters. -/
structure FormattedFile where
  filename : String
  bytes : Nat
  lineRange : String

/-- `formatReadTool(tool, result)`.  `offset || 0` makes an absent (or 0)
offset behave as 0; `limit ?` treats an absent or zero limit as falsy;
`''.split('\n')` has length 1, matching `splitOnChar` on the empty list. -/
def formatReadTool (tool : ToolUse) (result : Option ToolResultBlock) : FormattedFile :=
  let filepath := jsOrS tool.input.file_path "unknown"
  let filename := lastPathSegment filepath
  let content : JContent :=
    match result with
    | some r =>
      match r.content with
      | some c => if jContentTruthy c then c else .str ""
      | none => .str ""
    | none => .str ""
  let contentStr := jContentStr content
  let bytes := getByteSize contentStr
  let lines :=
    match content with
    | .str s => (splitOnChar '\n' s.data).length
    | .other _ => 1
  let offset := tool.input.offset.getD 0
  let startLine := offset + 1
  let endLine :=
    match tool.input.limit with
    | some l => if l ≠ 0 then offset + l else offset + lines
    | none => offset + lines
  ⟨filename, bytes, "L" ++ toString startLine ++ "-L" ++ toString endLine⟩

/-- `formatWriteTool(tool)`. -/
def formatWriteTool (tool : ToolUse) : FormattedFile :=
  let filepath := jsOrS tool.input.file_path "unknown"
  let filename := lastPathSegment filepath
  let content := tool.input.content.getD ""
  let bytes := getByteSize content
  let lines := (splitOnChar '\n' content.data).length
  ⟨filename, bytes, "L1-L" ++ toString lines⟩

/-- `formatEditTool(tool)` (line range from the replacement text alone,
preserved as-is). -/
def formatEditTool (tool : ToolUse) : FormattedFile :=
  let filepath := jsOrS tool.input.file_path "unknown"
  let filename := lastPathSegment filepath
  let content := tool.input.new_string.getD ""
  let bytes := getByteSize content
  let lines := (splitOnChar '\n' content.data).length
  ⟨filename, bytes, "L1-L" ++ toString lines⟩

/-- Word character of the JS `\w` class. -/
def jsWordChar (c : Char) : Bool := c.isAlphanum || c = '_'

/-- What must follow a `<<` for the heredoc pattern `<<\s*['"]?\w+['"]?` to
match there: any run of whitespace, an optional single or double quote, then
a word character (the rest of the pattern is optional or greedy and cannot
fail once one word character matched). -/
def heredocAfter (l : List Char) : Bool :=
  match l.dropWhile jsWhitespace with
  | [] => false
  | c :: r2 =>
    if c.toNat = 39 || c = '"' then
      match r2 with
      | d :: _ => jsWordChar d
      | [] => false
    else jsWordChar c

/-- `heredocPattern.test(cmd)` for `/<<\s*['"]?\w+['"]?/`. -/
def heredocTest (cmd : String) : Bool :=
  (tailsOf cmd.data).any fun t =>
    match t with
    | '<' :: '<' :: rest => heredocAfter rest
    | _ => false

/-- `formatBashTool(tool, result, timeMetadata)`.  An absent result or exit
code reads as exit code 0. -/
def formatBashTool (tool : ToolUse) (result : Option ToolResultBlock)
    (timeMetadata : String) : String :=
  let cmd := tool.input.command.getD ""
  let exitCode : Int :=
    match result with
    | some r => r.exit_code.getD 0
    | none => 0
  let parts : List String := []
  let parts := if exitCode ≠ 0 then parts ++ ["exit=" ++ toString exitCode] else parts
  let parts := if cmd ≠ "" then parts ++ ["cmd=" ++ toString (getByteSize cmd) ++ "b"] else parts
  let parts :=
    match result with
    | some r =>
      match r.content with
      | some c =>
        if jContentTruthy c then
          let content := jContentStr c
          if content.length > 0 then parts ++ ["out=" ++ toString (getByteSize content) ++ "b"]
          else parts
        else parts
      | none => parts
    | none => parts
  let resultMeta := if parts.length > 0 then joinSep " " parts else ""
  let fullMeta := timeMetadata ++ resultMeta
  if heredocTest cmd then
    let reference := "<heredoc - see tool_use_id=\"" ++ tool.id ++ "\">"
    if fullMeta ≠ "" then "Bash: [" ++ jsTrim fullMeta ++ "] " ++ reference
    else "Bash: " ++ reference
  else
    if fullMeta ≠ "" then "Bash: [" ++ jsTrim fullMeta ++ "] " ++ cmd
    else "Bash: " ++ cmd

/-- `formatTaskTool(tool, timeMetadata)`. -/
def formatTaskTool (tool : ToolUse) (timeMetadata : String) : String :=
  let subagent := jsOrS tool.input.subagent_type "unknown"
  let desc := tool.input.description.getD ""
  let descPart := if desc ≠ "" then " (\"" ++ desc ++ "\")" else ""
  if timeMetadata ≠ "" then "Task: [" ++ jsTrim timeMetadata ++ "] " ++ subagent ++ descPart
  else "Task: " ++ subagent ++ descPart

/-- `formatMcpTool(tool, result, timeMetadata)`: strip a leading `mcp__`,
turn the remaining `__` into dots, and render the full parameter list. -/
def formatMcpTool (tool : ToolUse) (result : Option ToolResultBlock)
    (timeMetadata : String) : String :=
  let stripped := if jsStartsWith tool.name "mcp__" then jsDrop tool.name 5 else tool.name
  let mcpName := jsReplaceAll stripped "__" "."
  let inputBytes := getByteSize tool.input.serialized
  let outputBytes :=
    match result with
    | some r =>
      match r.content with
      | some c => if jContentTruthy c then getByteSize (jContentStr c) else 0
      | none => 0
    | none => 0
  let parts : List String := []
  let parts := if inputBytes > 0 then parts ++ ["in=" ++ toString inputBytes ++ "b"] else parts
  let parts := if outputBytes > 0 then parts ++ ["out=" ++ toString outputBytes ++ "b"] else parts
  let resultMeta := if parts.length > 0 then joinSep " " parts else ""
  let fullMeta := timeMetadata ++ resultMeta
  let params := joinSep ", " (tool.input.pairs.map (fun kv => kv.1 ++ "=" ++ kv.2))
  if fullMeta ≠ "" then "MCP: [" ++ jsTrim fullMeta ++ "] " ++ mcpName ++ "(" ++ params ++ ")"
  else "MCP: " ++ mcpName ++ "(" ++ params ++ ")"

/-- `formatAskUserQuestion(tool, result, timeMetadata)`. -/
def formatAskUserQuestion (tool : ToolUse) (_result : Option ToolResultBlock)
    (timeMetadata : String) : String :=
  let firstQuestion :=
    match tool.input.questions with
    | [] => "User question"
    | q :: _ => if q = "" then "User question" else q
  let shortQ := if firstQuestion.length > 60 then jsTake firstQuestion 57 ++ "..." else firstQuestion
  let metaStr := if timeMetadata ≠ "" then "[" ++ jsTrim timeMetadata ++ "] " else ""
  metaStr ++ "Asked: \"" ++ shortQ ++ "\""

/-- `formatWebFetch(tool, result, timeMetadata)`. -/
def formatWebFetch (tool : ToolUse) (result : Option ToolResultBlock)
    (timeMetadata : String) : String :=
  let url := jsOrS tool.input.url "unknown"
  let shortUrl := if url.length > 50 then jsTake url 47 ++ "..." else url
  let inputBytes := getByteSize (tool.input.prompt.getD "")
  let outputBytes := getByteSizeContent (result.bind (fun r => r.content))
  let parts : List String := []
  let parts := if timeMetadata ≠ "" then parts ++ [jsTrim timeMetadata] else parts
  let parts := if inputBytes > 0 then parts ++ ["in=" ++ toString inputBytes ++ "b"] else parts
  let parts := if outputBytes > 0 then parts ++ ["out=" ++ toString outputBytes ++ "b"] else parts
  let metaStr := if parts.length > 0 then "[" ++ joinSep " " parts ++ "] " else ""
  metaStr ++ "WebFetch: " ++ shortUrl

/-- `formatWebSearch(tool, result, timeMetadata)`. -/
def formatWebSearch (tool : ToolUse) (result : Option ToolResultBlock)
    (timeMetadata : String) : String :=
  let query := jsOrS tool.input.query "unknown"
  let shortQuery := if query.length > 50 then jsTake query 47 ++ "..." else query
  let outputBytes := getByteSizeContent (result.bind (fun r => r.content))
  let parts : List String := []
  let parts := if timeMetadata ≠ "" then parts ++ [jsTrim timeMetadata] else parts
  let parts := if outputBytes > 0 then parts ++ ["out=" ++ toString outputBytes ++ "b"] else parts
  let metaStr := if parts.length > 0 then "[" ++ joinSep " " parts ++ "] " else ""
  metaStr ++ "WebSearch: \"" ++ shortQuery ++ "\""

/-- `formatUnknownTool(tool, result, timeMetadata)`. -/
def formatUnknownTool (tool : ToolUse) (result : Option ToolResultBlock)
    (timeMetadata : String) : String :=
  let toolName := if jsStartsWith tool.name "mcp__" then jsDrop tool.name 5 else tool.name
  let inputBytes := getByteSize tool.input.serialized
  let outputBytes := getByteSizeContent (result.bind (fun r => r.content))
  let parts : List String := []
  let parts := if timeMetadata ≠ "" then parts ++ [jsTrim timeMetadata] else parts
  let parts := if inputBytes > 0 then parts ++ ["in=" ++ toString inputBytes ++ "b"] else parts
  let parts := if outputBytes > 0 then parts ++ ["out=" ++ toString outputBytes ++ "b"] else parts
  let metaStr := if parts.length > 0 then "[" ++ joinSep " " parts ++ "] " else ""
  metaStr ++ toolName ++ ": (new tool - needs formatter)"

/-- `extractUserMessage(entry)`: first truthy text block, truncated. -/
def findTextBlock : List ContentBlock → Option String
  | [] => none
  | .text t :: rest => if t ≠ "" then some (truncateUserMessage t) else findTextBlock rest
  | _ :: rest => findTextBlock rest

/-- `extractUserMessage(entry)`. -/
def extractUserMessage (e : Entry) : Option String :=
  if e.type ≠ "user" then none
  else
    match e.message with
    | none => none
    | some m =>
      match m.content with
      | none => none
      | some bs => findTextBlock bs

/-- The run-length-eligible tool kinds. -/
def RLE_TOOLS : List String := ["Read", "Write", "Edit", "Think"]

/-- The fixed low-signal blocklist. -/
def BLOCKLIST_TOOLS : List String :=
  ["Glob", "Grep", "TodoWrite", "ExitPlanMode", "Skill", "SlashCommand",
   "BashOutput", "KillShell", "NotebookEdit"]

/-- Size threshold below which a Read is skipped invisibly. -/
def READ_SIZE_THRESHOLD : Nat := 3000

/-- `usage && usage.input_tokens && usage.output_tokens`. -/
def usageOk : Option Usage → Bool
  | none => false
  | some u => u.input_tokens != 0 && u.output_tokens != 0

/-- A pending reasoning (thinking) run. -/
structure ThinkPending where
  count : Nat
  totalIn : Nat
  totalOut : Nat
  cost : JNum
  startTime : Option Timestamp
  endTime : Option Timestamp

/-- A pending file-operation run.  `files` models the insertion-ordered JS
`Map` from filename to its accumulated ranges. -/
structure FilePending where
  type : String
  files : List (String × List String)
  totalBytes : Nat
  cost : JNum
  startTime : Option Timestamp
  endTime : Option Timestamp

/-- The single-slot PendingAction buffer. -/
inductive Pending where
  | think (t : ThinkPending)
  | fileOp (f : FilePending)

/-- The compiler state threaded through one pass. -/
structure CState where
  actions : List String
  prevTimestamp : Option Timestamp
  lineNum : Nat
  messageNum : Nat
  pending : Option Pending
  lastUserMessage : Option String

/-- Initial compiler state. -/
def initState : CState :=
  { actions := [], prevTimestamp := none, lineNum := 1, messageNum := 0,
    pending := none, lastUserMessage := none }

/-- `endTime || startTime`. -/
def jsTsOr (a b : Option Timestamp) : Option Timestamp :=
  match a with
  | some t => some t
  | none => b

/-- The `+duration ` fragment: non-empty only when both timestamps are
present and `formatDuration` yields a string (the source guards
`a && b` and then calls `formatDuration(prev, t)`). -/
def durMeta (prev t : Option Timestamp) : String :=
  match prev, t with
  | some p, some ts =>
    match formatDuration p.ms ts.ms with
    | some d => "+" ++ d ++ " "
    | none => ""
  | _, _ => ""

/-- `Map.get` followed by an in-place `ranges.push` on the found entry
(replace-first; keys are unique in a JS `Map`). -/
def pushRange : List (String × List String) → String → String → List (String × List String)
  | [], _, _ => []
  | (k, rs) :: rest, key, r =>
    if k = key then (k, rs ++ [r]) :: rest
    else (k, rs) :: pushRange rest key r

/-- The `flushPending` closure: renders and clears the PendingAction,
advancing `prevTimestamp` (and `lineNum` for a numbered file-operation
line). -/
def flushPending (s : CState) : CState :=
  match s.pending with
  | none => s
  | some (.think t) =>
    let timeMeta := durMeta s.prevTimestamp t.startTime
    let countStr := if t.count > 1 then toString t.count ++ "x " else ""
    let meta := jsTrim (timeMeta ++ countStr ++ "in=" ++ toString t.totalIn ++ "t out=" ++
      toString t.totalOut ++ "t $" ++ t.cost.toFixed4)
    { s with actions := s.actions ++ ["💭 [" ++ meta ++ "]"],
             prevTimestamp := jsTsOr t.endTime t.startTime,
             pending := none }
  | some (.fileOp f) =>
    let timeMeta := durMeta s.prevTimestamp f.startTime
    let fileEntries := flatMapList (fun kv => kv.2.map (fun r => kv.1 ++ "[" ++ r ++ "]")) f.files
    let fileList := joinSep ", " fileEntries
    let meta := jsTrim (timeMeta ++ toString f.totalBytes ++ "b $" ++ f.cost.toFixed4)
    let action := f.type ++ ": [" ++ meta ++ "] " ++ fileList
    { s with actions := s.actions ++ [toString s.lineNum ++ ". " ++ action],
             lineNum := s.lineNum + 1,
             prevTimestamp := jsTsOr f.endTime f.startTime,
             pending := none }

/-- Per-record context shared by all tool_use blocks of one assistant
record. -/
structure Ctx where
  toolResults : List (String × ToolResultBlock)
  timestamp : Option Timestamp
  usage : Option Usage
  model : Option String
  entryCost : JNum
  shouldInline : Bool

/-- The inlined `in=..t out=..t $..` fragment for single-invocation
records. -/
def inlineMeta (ctx : Ctx) : String :=
  match ctx.usage with
  | some u =>
    if ctx.shouldInline && (u.input_tokens != 0) && (u.output_tokens != 0) then
      "in=" ++ toString u.input_tokens ++ "t out=" ++ toString u.output_tokens ++ "t $" ++
        ctx.entryCost.toFixed4 ++ " "
    else ""
  | none => ""

/-- Processing of one content block inside an assistant record (the body of
the `for (const block of entry.message.content)` loop).  The only failure:
a tool_use block named "Think" is run-length-eligible but has no formatter,
so the source destructures `undefined` and throws. -/
def processToolBlock (ctx : Ctx) (s : CState) (b : ContentBlock) : Except Unit CState :=
  match b with
  | .toolUse t =>
    let result := List.lookup t.id ctx.toolResults
    let isMcpTool := jsStartsWith t.name "mcp__"
    if BLOCKLIST_TOOLS.contains t.name && !isMcpTool then .ok s
    else
      let metadata := durMeta s.prevTimestamp ctx.timestamp ++ inlineMeta ctx
      if RLE_TOOLS.contains t.name then
        let formatted : Option FormattedFile :=
          if t.name = "Read" then some (formatReadTool t result)
          else if t.name = "Write" then some (formatWriteTool t)
          else if t.name = "Edit" then some (formatEditTool t)
          else none
        match formatted with
        | none => .error ()
        | some fmt =>
          if t.name = "Read" ∧ fmt.bytes < READ_SIZE_THRESHOLD then .ok s
          else
            match s.pending with
            | some (.fileOp f) =>
              if f.type = t.name then
                .ok { s with pending := some (.fileOp
                  { f with files := pushRange f.files fmt.filename fmt.lineRange,
                           totalBytes := f.totalBytes + fmt.bytes,
                           cost := f.cost.add ctx.entryCost,
                           endTime := ctx.timestamp }) }
              else
                let s1 := flushPending s
                .ok { s1 with pending := some (.fileOp
                  { type := t.name, files := [(fmt.filename, [fmt.lineRange])],
                    totalBytes := fmt.bytes, cost := ctx.entryCost,
                    startTime := ctx.timestamp, endTime := ctx.timestamp }) }
            | _ =>
              let s1 := flushPending s
              .ok { s1 with pending := some (.fileOp
                { type := t.name, files := [(fmt.filename, [fmt.lineRange])],
                  totalBytes := fmt.bytes, cost := ctx.entryCost,
                  startTime := ctx.timestamp, endTime := ctx.timestamp }) }
      else
        let s1 := flushPending s
        let action :=
          if t.name = "Bash" then formatBashTool t result metadata
          else if t.name = "Task" then formatTaskTool t metadata
          else if t.name = "AskUserQuestion" then formatAskUserQuestion t result metadata
          else if t.name = "WebFetch" then formatWebFetch t result metadata
          else if t.name = "WebSearch" then formatWebSearch t result metadata
          else if isMcpTool then formatMcpTool t result metadata
          else formatUnknownTool t result metadata
        if action ≠ "" then
          .ok { s1 with actions := s1.actions ++ [toString s1.lineNum ++ ". " ++ action],
                        lineNum := s1.lineNum + 1,
                        prevTimestamp := ctx.timestamp }
        else .ok s1
  | _ => .ok s

/-- The loop over all content blocks of one assistant record. -/
def processToolBlocks (ctx : Ctx) (s : CState) (bs : List ContentBlock) : Except Unit CState :=
  bs.foldlM (processToolBlock ctx) s

/-- `entry.message?.content?.[0]?.type === 'thinking'`. -/
def firstIsThinking : Option Message → Bool
  | some m =>
    match m.content with
    | some (ContentBlock.thinking :: _) => true
    | _ => false
  | none => false

/-- The gap used for the 60-second idle filter: `0` when either timestamp is
absent, NaN (`none`) when either present timestamp is unparseable. -/
def thinkGap (prev t : Option Timestamp) : Option Int :=
  match prev, t with
  | some p, some ts =>
    match ts.ms, p.ms with
    | some a, some b => some (a - b)
    | _, _ => none
  | _, _ => some 0

/-- `duration > 60000` (false for NaN). -/
def gapOver60s : Option Int → Bool
  | some d => d > 60000
  | none => false

/-- Insert a pending user message as its own entry before the record's tool
actions and clear it (a falsy/empty stored message is never inserted). -/
def insertUserMessage (s : CState) : CState :=
  match s.lastUserMessage with
  | some msg =>
    if msg ≠ "" then
      { s with actions := s.actions ++ ["\nUser: " ++ msg ++ "\n"],
               lastUserMessage := none }
    else s
  | none => s

/-- Processing of one conversation record (the body of the
`for (const entry of conv.entries)` loop). -/
def processEntry (toolResults : List (String × ToolResultBlock)) (s : CState)
    (e : Entry) : Except Unit CState :=
  if e.type = "user" then
    match extractUserMessage e with
    | some msg => if msg ≠ "" then .ok { s with lastUserMessage := some msg } else .ok s
    | none => .ok s
  else if e.type = "assistant" ∧ firstIsThinking e.message = true then
    match e.message with
    | some m =>
      match m.usage with
      | some u =>
        if u.input_tokens ≠ 0 ∧ u.output_tokens ≠ 0 then
          if gapOver60s (thinkGap s.prevTimestamp e.timestamp) then .ok s
          else
            let thinkCost := calculateCost u.input_tokens u.output_tokens m.model
            match s.pending with
            | some (.think t) =>
              .ok { s with pending := some (.think
                { t with count := t.count + 1,
                         totalIn := t.totalIn + u.input_tokens,
                         totalOut := t.totalOut + u.output_tokens,
                         cost := t.cost.add thinkCost,
                         endTime := e.timestamp }) }
            | _ =>
              let s1 := flushPending s
              .ok { s1 with pending := some (.think
                { count := 1, totalIn := u.input_tokens, totalOut := u.output_tokens,
                  cost := thinkCost, startTime := e.timestamp, endTime := e.timestamp }) }
        else .ok s
      | none => .ok s
    | none => .ok s
  else
    match e.message with
    | some m =>
      match m.content with
      | some bs =>
        if e.type = "assistant" then
          let entryCost : JNum :=
            match m.usage with
            | some u =>
              if u.input_tokens ≠ 0 ∧ u.output_tokens ≠ 0 then
                calculateCost u.input_tokens u.output_tokens m.model
              else ⟨0, 1⟩
            | none => ⟨0, 1⟩
          let s2 := insertUserMessage { s with messageNum := s.messageNum + 1 }
          let toolBlocks := bs.filter isToolUse
          let shouldInline : Bool := toolBlocks.length == 1
          let ctx : Ctx :=
            { toolResults, timestamp := e.timestamp, usage := m.usage, model := m.model,
              entryCost, shouldInline }
          match processToolBlocks ctx s2 bs with
          | .error er => .error er
          | .ok s3 =>
            match m.usage with
            | some u =>
              if shouldInline = false ∧ 0 < toolBlocks.length ∧
                  u.input_tokens ≠ 0 ∧ u.output_tokens ≠ 0 then
                let s4 := flushPending s3
                let timeMeta := durMeta s4.prevTimestamp e.timestamp
                let messageEnd := "MessageEnd #" ++ toString s4.messageNum ++ ": [" ++ timeMeta ++
                  "in=" ++ toString u.input_tokens ++ "t out=" ++ toString u.output_tokens ++
                  "t $" ++ entryCost.toFixed4 ++ "]"
                .ok { s4 with actions := s4.actions ++ [messageEnd], prevTimestamp := e.timestamp }
              else .ok s3
            | none => .ok s3
        else .ok s
      | none => .ok s
    | none => .ok s

/-- The tool-result correlation index: one scan over all records, keeping
for each tool_use_id the last tool_result block seen (`Map.set`). -/
def mapSet (m : List (String × ToolResultBlock)) (k : String) (v : ToolResultBlock) :
    List (String × ToolResultBlock) :=
  match m with
  | [] => [(k, v)]
  | (k0, v0) :: rest => if k0 = k then (k, v) :: rest else (k0, v0) :: mapSet rest k v

/-- Build the tool-result index from the conversation records. -/
def collectToolResults (entries : List Entry) : List (String × ToolResultBlock) :=
  entries.foldl (fun m e =>
    if e.type = "user" then
      match e.message with
      | some msg =>
        match msg.content with
        | some bs =>
          bs.foldl (fun m b =>
            match b with
            | .toolResult r => mapSet m r.tool_use_id r
            | _ => m) m
        | none => m
      | none => m
    else m) []

/-- Run the full pass and return the final `actions` array (after the final
flush). -/
def compileActions (entries : List Entry) : Except Unit (List String) :=
  match entries.foldlM (processEntry (collectToolResults entries)) initState with
  | .error er => .error er
  | .ok s => .ok (flushPending s).actions

/-- `processConversation(conv)`: `none` models the explicit `null` result;
`Except.error` models a thrown exception. -/
def processConversation (conv : Conv) : Except Unit (Option ConvResult) :=
  match conv.entries with
  | none => .ok none
  | some es =>
    if es.length = 0 then .ok none
    else
      match compileActions es with
      | .error er => .error er
      | .ok as =>
        if as.length > 0 then
          .ok (some { file := jsOrS conv.filePath "unknown",
                      timeline := joinSep "\n" as, entries := es })
        else .ok none

/-!
Concrete sample data used by the claim witnesses and the counterexample.
-/

def c4res : ToolResultBlock := { tool_use_id := "tu1", content := some (JContent.str "short") }

def c4ctx : Ctx :=
  { toolResults := [("tu1", c4res)], timestamp := none, usage := none, model := none,
    entryCost := ⟨0, 1⟩, shouldInline := true }

def c4tool : ToolUse := ⟨"tu1", "Read", { file_path := some "/a/b.txt" }⟩

def c9ctx : Ctx :=
  { toolResults := [], timestamp := none, usage := none, model := none,
    entryCost := ⟨0, 1⟩, shouldInline := true }

def c9tool : ToolUse := ⟨"orphan", "Read", { file_path := some "/x.txt" }⟩

def c6prev : Timestamp := ⟨some 0⟩

def c6now : Timestamp := ⟨some 100000⟩

def c6state : CState :=
  { actions := [], prevTimestamp := some c6prev, lineNum := 1, messageNum := 0,
    pending := none, lastUserMessage := none }

def c8heredoc : String := "cat << EOF\nsecret body\nEOF"

def c3userEntry : Entry := ⟨"user", none, none⟩

def c3bashTool : ToolUse := ⟨"b1", "Bash", { command := some "ls" }⟩

def c3bashEntry : Entry :=
  { type := "assistant",
    message := some { content := some [ContentBlock.toolUse c3bashTool] } }

def c5content : JContent := JContent.str (String.mk (List.replicate 3001 'x'))

def c5res (i : String) : ToolResultBlock := { tool_use_id := i, content := some c5content }

def c5ctx : Ctx :=
  { toolResults := [("r1", c5res "r1"), ("r2", c5res "r2"), ("r3", c5res "r3")],
    timestamp := none, usage := none, model := none, entryCost := ⟨0, 1⟩,
    shouldInline := false }

def c5inp : ToolInput := { file_path := some "/src/main.ts", limit := some 1 }

def c5fmt : FormattedFile := ⟨"main.ts", 3001, "L1-L1"⟩

def c5mid : CState :=
  { initState with pending := some (Pending.fileOp
      { type := "Read", files := [("main.ts", ["L1-L1", "L1-L1", "L1-L1"])],
        totalBytes := 9003, cost := ⟨0, 1⟩, startTime := none, endTime := none }) }

def c1blocks : List ContentBlock :=
  [ContentBlock.toolUse ⟨"g1", "Grep", {}⟩, ContentBlock.toolUse ⟨"g2", "Grep", {}⟩]

def c1entry : Entry :=
  { type := "assistant",
    message := some { content := some c1blocks, usage := some ⟨1000000, 1000000⟩, model := none },
    timestamp := none }

def c1after : CState :=
  { actions := ["MessageEnd #1: [in=1000000t out=1000000t $18.0000]"],
    prevTimestamp := none, lineNum := 1, messageNum := 1, pending := none,
    lastUserMessage := none }

/-!
Claim theorems.
-/

/-- Flushing an empty PendingAction slot is a no-op. -/
lemma flushPending_none (s : CState) (hp : s.pending = none) : flushPending s = s := by
  unfold flushPending
  rw [hp]

/-- A below-threshold Read is skipped with the state unchanged. -/
lemma read_below_threshold_skip (ctx : Ctx) (s : CState) (i : String) (inp : ToolInput)
    (hbytes : (formatReadTool ⟨i, "Read", inp⟩ (List.lookup i ctx.toolResults)).bytes <
      READ_SIZE_THRESHOLD) :
    processToolBlock ctx s (ContentBlock.toolUse ⟨i, "Read", inp⟩) = Except.ok s := by
  simp only [processToolBlock]
  dsimp only
  rw [if_neg (by decide : ¬ (BLOCKLIST_TOOLS.contains "Read" && !jsStartsWith "Read" "mcp__") = true)]
  rw [if_pos (by decide : RLE_TOOLS.contains "Read" = true)]
  simp only [if_true, true_and]
  rw [if_pos hbytes]

/-- C2: the claim states that the duration computation yields no duration
metadata when either timestamp is unparseable.  The code disagrees: an
unparseable timestamp makes `diffMs` NaN, every range guard is a false NaN
comparison, nothing throws (so the catch never fires), and the function
returns the rendered string "NaNm" instead of null.  This theorem evaluates
the embedded code at the failing inputs (one side unparseable, the other
the epoch). -/
theorem claim_C2_nan : formatDuration none (some 0) = some "NaNm" ∧
    formatDuration (some 0) none = some "NaNm" :=
  ⟨rfl, rfl⟩

/-- C4: a Read tool invocation whose correlated result content has byte
size strictly below the 3000-byte threshold leaves the compiler state
completely unchanged: no timeline entry is emitted, the sequence counter
does not advance, and the current PendingAction (whatever it holds) is
neither flushed, extended, nor replaced. -/
theorem claim_C4 (ctx : Ctx) (s : CState) (i : String) (inp : ToolInput)
    (hbytes : (formatReadTool ⟨i, "Read", inp⟩ (List.lookup i ctx.toolResults)).bytes <
      READ_SIZE_THRESHOLD) :
    processToolBlock ctx s (ContentBlock.toolUse ⟨i, "Read", inp⟩) = Except.ok s :=
  read_below_threshold_skip ctx s i inp hbytes




/-- Witness for C4 at a concrete small read. -/
theorem claim_C4_witness :
    (formatReadTool c4tool (List.lookup "tu1" c4ctx.toolResults)).bytes < READ_SIZE_THRESHOLD ∧
    processToolBlock c4ctx initState (ContentBlock.toolUse c4tool) = Except.ok initState :=
  ⟨by decide, claim_C4 c4ctx initState "tu1" { file_path := some "/a/b.txt" } (by decide)⟩

/-- C9: a Read tool invocation with no correlated result in the
tool-result index has computed content byte size 0, which is below the
3000-byte threshold, so it is always skipped invisibly: it produces no
timeline entry and never starts, extends, or breaks a run (the state is
returned unchanged). -/
theorem claim_C9 (ctx : Ctx) (s : CState) (i : String) (inp : ToolInput)
    (hlook : List.lookup i ctx.toolResults = none) :
    (formatReadTool ⟨i, "Read", inp⟩ (List.lookup i ctx.toolResults)).bytes = 0 ∧
    processToolBlock ctx s (ContentBlock.toolUse ⟨i, "Read", inp⟩) = Except.ok s := by
  have hb0 : (formatReadTool ⟨i, "Read", inp⟩ none).bytes = 0 := rfl
  constructor
  · rw [hlook]
    exact hb0
  · exact read_below_threshold_skip ctx s i inp (by rw [hlook, hb0]; decide)



/-- Witness for C9 at a concrete uncorrelated read. -/
theorem claim_C9_witness :
    List.lookup "orphan" c9ctx.toolResults = none ∧
    (formatReadTool c9tool (List.lookup "orphan" c9ctx.toolResults)).bytes = 0 ∧
    processToolBlock c9ctx initState (ContentBlock.toolUse c9tool) = Except.ok initState :=
  have h := claim_C9 c9ctx initState "orphan" { file_path := some "/x.txt" } rfl
  ⟨rfl, h.1, h.2⟩

/-- C7: pricing tiers are keyed by case-insensitive substring match on the
model identifier; for a premium-tier (opus) identifier with 1,000,000 input
tokens and 0 output tokens the computed cost equals exactly the premium
input rate of 15 dollars; every identifier matching no tier, and an
unspecified identifier, falls back to the default tier rates 3/15 — never
the premium tier — and the computation is total by construction. -/
theorem claim_C7 (m : String)
    (h45 : jsIncludes (jsToLower m) "sonnet-4-5" = false)
    (h4d : jsIncludes (jsToLower m) "sonnet-4.5" = false)
    (h4 : jsIncludes (jsToLower m) "sonnet-4" = false)
    (h35 : jsIncludes (jsToLower m) "sonnet-3-5" = false)
    (h3d : jsIncludes (jsToLower m) "sonnet-3.5" = false)
    (h3 : jsIncludes (jsToLower m) "sonnet-3" = false)
    (hop : jsIncludes (jsToLower m) "opus" = true)
    (hne : m ≠ "") (hnu : m ≠ "unknown") :
    (calculateCost 1000000 0 (some m)).eqv (JNum.ofNat 15) ∧
    (calculateCost 1000000 0 (some m)).toFixed4 = "15.0000" ∧
    getModelPricing (some m) = ⟨⟨15, 1⟩, ⟨75, 1⟩⟩ ∧
    (∀ m' : String, m' ≠ "" → m' ≠ "unknown" →
      jsIncludes (jsToLower m') "sonnet-4-5" = false →
      jsIncludes (jsToLower m') "sonnet-4.5" = false →
      jsIncludes (jsToLower m') "sonnet-4" = false →
      jsIncludes (jsToLower m') "sonnet-3-5" = false →
      jsIncludes (jsToLower m') "sonnet-3.5" = false →
      jsIncludes (jsToLower m') "sonnet-3" = false →
      jsIncludes (jsToLower m') "opus" = false →
      jsIncludes (jsToLower m') "haiku" = false →
      getModelPricing (some m') = ⟨⟨3, 1⟩, ⟨15, 1⟩⟩) ∧
    getModelPricing none = ⟨⟨3, 1⟩, ⟨15, 1⟩⟩ := by
  have hp : getModelPricing (some m) = ⟨⟨15, 1⟩, ⟨75, 1⟩⟩ := by
    simp only [getModelPricing]
    rw [if_neg (by simp [hne, hnu])]
    simp only [h45, h4d, h4, h35, h3d, h3, hop, Bool.or_false, Bool.false_or]
    rfl
  refine ⟨?_, ?_, hp, ?_, rfl⟩
  · unfold calculateCost
    rw [hp]
    rfl
  · unfold calculateCost
    rw [hp]
    rfl
  · intro m' hne' hnu' g45 g4d g4 g35 g3d g3 gop ghk
    simp only [getModelPricing]
    rw [if_neg (by simp [hne', hnu'])]
    simp only [g45, g4d, g4, g35, g3d, g3, gop, ghk, Bool.or_false, Bool.false_or]
    rfl

/-- Witness for C7 at concrete model identifiers. -/
theorem claim_C7_witness :
    jsIncludes (jsToLower "claude-3-OPUS-20240229") "opus" = true ∧
    (calculateCost 1000000 0 (some "claude-3-OPUS-20240229")).eqv (JNum.ofNat 15) ∧
    (calculateCost 1000000 0 (some "claude-3-OPUS-20240229")).toFixed4 = "15.0000" ∧
    getModelPricing (some "totally-new-model") = ⟨⟨3, 1⟩, ⟨15, 1⟩⟩ :=
  have h := claim_C7 "claude-3-OPUS-20240229" (by decide) (by decide) (by decide)
    (by decide) (by decide) (by decide) (by decide) (by decide) (by decide)
  ⟨by decide, h.1, h.2.1,
    h.2.2.2.1 "totally-new-model" (by decide) (by decide) (by decide) (by decide)
      (by decide) (by decide) (by decide) (by decide) (by decide) (by decide)⟩

/-- C6: a reasoning-only assistant record (content headed by a thinking
block) whose gap from the previous emission exceeds 60 seconds is dropped
entirely: it produces no timeline entry, contributes no cost and no
duration, and leaves the PendingAction and the previous-emission timestamp
unchanged — the state is returned exactly as it was. -/
theorem claim_C6 (trs : List (String × ToolResultBlock)) (s : CState)
    (rest : List ContentBlock) (usage : Option Usage) (model : Option String)
    (pt tv : Timestamp) (a b : Int)
    (hprev : s.prevTimestamp = some pt)
    (hpt : pt.ms = some b) (htv : tv.ms = some a)
    (hgap : a - b > 60000) :
    processEntry trs s
      ⟨"assistant", some ⟨some (ContentBlock.thinking :: rest), usage, model⟩, some tv⟩ =
      Except.ok s := by
  simp only [processEntry]
  rw [if_neg (by decide : ¬ ("assistant" : String) = "user")]
  rw [if_pos ⟨trivial, rfl⟩]
  cases usage with
  | none => rfl
  | some u =>
    dsimp only
    by_cases hu : u.input_tokens ≠ 0 ∧ u.output_tokens ≠ 0
    · rw [if_pos hu, hprev]
      have hg : gapOver60s (thinkGap (some pt) (some tv)) = true := by
        simp [thinkGap, gapOver60s, hpt, htv]
        exact hgap
      rw [hg]
      simp only [if_true]
    · rw [if_neg hu]




/-- Witness for C6 at a concrete 100-second gap. -/
theorem claim_C6_witness :
    c6state.prevTimestamp = some c6prev ∧ (100000 : Int) - 0 > 60000 ∧
    processEntry [] c6state
      ⟨"assistant", some ⟨some [ContentBlock.thinking], some ⟨5, 7⟩, none⟩, some c6now⟩ =
      Except.ok c6state :=
  ⟨rfl, by decide,
    claim_C6 [] c6state [] (some ⟨5, 7⟩) none c6prev c6now 100000 0 rfl rfl rfl (by decide)⟩

/-- C10: a reasoning-only assistant record whose usage is absent, or whose
input or output token count is zero, is skipped entirely regardless of
timestamps: it emits nothing, accrues no cost, and neither starts nor
extends a reasoning run nor flushes or alters the PendingAction — the state
is returned exactly as it was. -/
theorem claim_C10 (trs : List (String × ToolResultBlock)) (s : CState)
    (rest : List ContentBlock) (model : Option String) (ts : Option Timestamp)
    (usage : Option Usage)
    (hbad : usage = none ∨ ∃ u, usage = some u ∧ (u.input_tokens = 0 ∨ u.output_tokens = 0)) :
    processEntry trs s
      ⟨"assistant", some ⟨some (ContentBlock.thinking :: rest), usage, model⟩, ts⟩ =
      Except.ok s := by
  simp only [processEntry]
  rw [if_neg (by decide : ¬ ("assistant" : String) = "user")]
  rw [if_pos ⟨trivial, rfl⟩]
  rcases hbad with h | ⟨u, hu, hz⟩
  · rw [h]
  · rw [hu]
    dsimp only
    rw [if_neg (by rcases hz with h0 | h0 <;> simp [h0])]

/-- Witness for C10 at a concrete zero-input-token usage. -/
theorem claim_C10_witness :
    ((some ⟨0, 55⟩ : Option Usage) = none ∨
      ∃ u, (some ⟨0, 55⟩ : Option Usage) = some u ∧
        (u.input_tokens = 0 ∨ u.output_tokens = 0)) ∧
    processEntry [] initState
      ⟨"assistant", some ⟨some [ContentBlock.thinking], some ⟨0, 55⟩, none⟩,
        some ⟨some 1000⟩⟩ = Except.ok initState :=
  ⟨Or.inr ⟨⟨0, 55⟩, rfl, Or.inl rfl⟩,
    claim_C10 [] initState [] none (some ⟨some 1000⟩) (some ⟨0, 55⟩)
      (Or.inr ⟨⟨0, 55⟩, rfl, Or.inl rfl⟩)⟩

/-- A command matching the heredoc pattern is non-empty. -/
lemma heredocTest_ne_empty (c : String) (h : heredocTest c = true) : c ≠ "" := by
  intro hc
  rw [hc] at h
  exact absurd h (by decide)

/-- Both rendering arms of the shell formatter end with the given tail. -/
lemma bash_render_suffix (fm tail : String) :
    ∃ pre, (if fm ≠ "" then "Bash: [" ++ jsTrim fm ++ "] " ++ tail else "Bash: " ++ tail) =
      pre ++ tail := by
  by_cases h : fm ≠ ""
  · rw [if_pos h]
    exact ⟨_, rfl⟩
  · rw [if_neg h]
    exact ⟨"Bash: ", rfl⟩

/-- C8: a shell command matching the heredoc start pattern renders with an
opaque reference naming the originating tool invocation identifier as its
suffix (part 1), and the rendered line depends on such a command only
through its length — two heredoc commands of equal length render
identically — so the literal body is never echoed (part 2); a command not
matching the pattern is rendered with its full command text (part 3). -/
theorem claim_C8 :
    (∀ (i nm : String) (inp : ToolInput) (result : Option ToolResultBlock) (tm : String),
      heredocTest (inp.command.getD "") = true →
      ∃ pre, formatBashTool ⟨i, nm, inp⟩ result tm =
        pre ++ ("<heredoc - see tool_use_id=\"" ++ i ++ "\">")) ∧
    (∀ (i nm : String) (inp : ToolInput) (result : Option ToolResultBlock) (tm c c' : String),
      heredocTest c = true → heredocTest c' = true → c.length = c'.length →
      formatBashTool ⟨i, nm, { inp with command := some c }⟩ result tm =
        formatBashTool ⟨i, nm, { inp with command := some c' }⟩ result tm) ∧
    (∀ (i nm : String) (inp : ToolInput) (result : Option ToolResultBlock) (tm : String),
      heredocTest (inp.command.getD "") = false →
      ∃ pre, formatBashTool ⟨i, nm, inp⟩ result tm = pre ++ inp.command.getD "") := by
  refine ⟨?_, ?_, ?_⟩
  · intro i nm inp result tm hh
    simp only [formatBashTool]
    rw [hh]
    simp only [if_true]
    exact bash_render_suffix _ _
  · intro i nm inp result tm c c' hc hc' hlen
    have hcne : ¬ (c = "") := heredocTest_ne_empty c hc
    have hcne' : ¬ (c' = "") := heredocTest_ne_empty c' hc'
    simp only [formatBashTool]
    simp only [Option.getD_some, getByteSize, hlen, hc, hc', hcne, hcne', ne_eq,
      not_false_eq_true, if_true]
  · intro i nm inp result tm hh
    simp only [formatBashTool]
    rw [hh]
    simp only [Bool.false_eq_true, if_false]
    exact bash_render_suffix _ _

/-- C3: a conversation from which zero actions are emitted returns the
explicit none result, distinguishable by type from any timeline entry with
empty text; a non-none result is returned exactly when at least one entry
was produced, and then carries those entries joined line by line; an absent
entries array also yields none. -/
theorem claim_C3 :
    (∀ (conv : Conv) (es : List Entry), conv.entries = some es →
      compileActions es = Except.ok [] → processConversation conv = Except.ok none) ∧
    (∀ (conv : Conv) (es : List Entry) (as : List String), conv.entries = some es →
      compileActions es = Except.ok as → as ≠ [] →
      processConversation conv = Except.ok (some
        { file := jsOrS conv.filePath "unknown", timeline := joinSep "\n" as,
          entries := es })) ∧
    (∀ conv : Conv, conv.entries = none → processConversation conv = Except.ok none) := by
  refine ⟨?_, ?_, ?_⟩
  · intro conv es hes hca
    simp only [processConversation]
    rw [hes]
    dsimp only
    cases es with
    | nil => rfl
    | cons e es' =>
      rw [if_neg (by simp)]
      rw [hca]
      rfl
  · intro conv es as hes hca hne
    have hesne : es ≠ [] := by
      intro he
      rw [he] at hca
      have : Except.ok ([] : List String) = Except.ok as := hca
      cases this
      exact hne rfl
    simp only [processConversation]
    rw [hes]
    dsimp only
    rw [if_neg (by simpa using hesne)]
    rw [hca]
    dsimp only
    rw [if_pos (List.length_pos.mpr hne)]
  · intro conv h
    simp only [processConversation]
    rw [h]


/-- Witness for C8 at a concrete heredoc and a plain command. -/
theorem claim_C8_witness :
    heredocTest c8heredoc = true ∧
    (∃ pre, formatBashTool ⟨"b1", "Bash", { command := some c8heredoc }⟩ none "" =
      pre ++ ("<heredoc - see tool_use_id=\"" ++ "b1" ++ "\">")) ∧
    heredocTest "ls -la" = false ∧
    (∃ pre, formatBashTool ⟨"b2", "Bash", { command := some "ls -la" }⟩ none "" =
      pre ++ "ls -la") :=
  ⟨by decide,
    claim_C8.1 "b1" "Bash" { command := some c8heredoc } none "" (by decide),
    by decide,
    claim_C8.2.2 "b2" "Bash" { command := some "ls -la" } none "" (by decide)⟩




/-- Witness for C3 at a concrete empty and non-empty conversation. -/
theorem claim_C3_witness :
    compileActions [c3userEntry] = Except.ok [] ∧
    processConversation { entries := some [c3userEntry] } = Except.ok none ∧
    compileActions [c3bashEntry] = Except.ok ["1. Bash: [cmd=2b] ls"] ∧
    processConversation { entries := some [c3bashEntry] } =
      Except.ok (some
        { file := "unknown", timeline := "1. Bash: [cmd=2b] ls",
          entries := [c3bashEntry] }) :=
  ⟨rfl,
    claim_C3.1 { entries := some [c3userEntry] } [c3userEntry] rfl rfl,
    rfl,
    claim_C3.2.1 { entries := some [c3bashEntry] } [c3bashEntry] ["1. Bash: [cmd=2b] ls"]
      rfl rfl (by decide)⟩

/-- Starting a new Read run from an empty slot. -/
lemma readStep_start (ctx : Ctx) (s : CState) (i : String) (inp : ToolInput)
    (fmt : FormattedFile)
    (hF : formatReadTool ⟨i, "Read", inp⟩ (List.lookup i ctx.toolResults) = fmt)
    (hbytes : ¬ fmt.bytes < READ_SIZE_THRESHOLD)
    (hp : s.pending = none) :
    processToolBlock ctx s (ContentBlock.toolUse ⟨i, "Read", inp⟩) =
      Except.ok { s with pending := some (Pending.fileOp
        { type := "Read", files := [(fmt.filename, [fmt.lineRange])], totalBytes := fmt.bytes,
          cost := ctx.entryCost, startTime := ctx.timestamp, endTime := ctx.timestamp }) } := by
  simp only [processToolBlock]
  dsimp only
  rw [if_neg (by decide : ¬ (BLOCKLIST_TOOLS.contains "Read" && !jsStartsWith "Read" "mcp__") = true)]
  rw [if_pos (by decide : RLE_TOOLS.contains "Read" = true)]
  simp only [if_true, true_and]
  rw [hF]
  rw [if_neg hbytes]
  rw [hp]
  dsimp only
  rw [flushPending_none s hp]

/-- Extending an existing Read run. -/
lemma readStep_extend (ctx : Ctx) (s : CState) (i : String) (inp : ToolInput)
    (fmt : FormattedFile) (f : FilePending)
    (hF : formatReadTool ⟨i, "Read", inp⟩ (List.lookup i ctx.toolResults) = fmt)
    (hbytes : ¬ fmt.bytes < READ_SIZE_THRESHOLD)
    (hp : s.pending = some (Pending.fileOp f))
    (hty : f.type = "Read") :
    processToolBlock ctx s (ContentBlock.toolUse ⟨i, "Read", inp⟩) =
      Except.ok { s with pending := some (Pending.fileOp
        { f with files := pushRange f.files fmt.filename fmt.lineRange,
                 totalBytes := f.totalBytes + fmt.bytes,
                 cost := f.cost.add ctx.entryCost,
                 endTime := ctx.timestamp }) } := by
  simp only [processToolBlock]
  dsimp only
  rw [if_neg (by decide : ¬ (BLOCKLIST_TOOLS.contains "Read" && !jsStartsWith "Read" "mcp__") = true)]
  rw [if_pos (by decide : RLE_TOOLS.contains "Read" = true)]
  simp only [if_true, true_and]
  rw [hF]
  rw [if_neg hbytes]
  rw [hp]
  dsimp only
  rw [if_pos hty]

/-- One successful step peels off the head of a monadic fold over `Except`. -/
lemma foldlM_except_cons_ok (f : CState → ContentBlock → Except Unit CState)
    (s s' : CState) (b : ContentBlock) (bs : List ContentBlock)
    (h : f s b = Except.ok s') :
    List.foldlM f s (b :: bs) = List.foldlM f s' bs := by
  simp only [List.foldlM_cons, h]
  rfl

/-- C5: three consecutive Read invocations of the same file, each with
correlated content byte size exceeding the 3000-byte threshold, starting
from an empty PendingAction slot, accumulate into a single pending Read run
holding the three line ranges, the byte total, and the accumulated cost;
flushing that run appends exactly one numbered action line listing that
filename with the three ranges, the byte total, and the accumulated cost,
and advances the line number by exactly one. -/
theorem claim_C5 (ctx : Ctx) (s : CState) (i1 i2 i3 : String)
    (inp1 inp2 inp3 : ToolInput) (f1 f2 f3 : FormattedFile) (fn : String)
    (hF1 : formatReadTool ⟨i1, "Read", inp1⟩ (List.lookup i1 ctx.toolResults) = f1)
    (hF2 : formatReadTool ⟨i2, "Read", inp2⟩ (List.lookup i2 ctx.toolResults) = f2)
    (hF3 : formatReadTool ⟨i3, "Read", inp3⟩ (List.lookup i3 ctx.toolResults) = f3)
    (hfn1 : f1.filename = fn) (hfn2 : f2.filename = fn) (hfn3 : f3.filename = fn)
    (hb1 : READ_SIZE_THRESHOLD < f1.bytes) (hb2 : READ_SIZE_THRESHOLD < f2.bytes)
    (hb3 : READ_SIZE_THRESHOLD < f3.bytes)
    (hp : s.pending = none) :
    processToolBlocks ctx s
      [ContentBlock.toolUse ⟨i1, "Read", inp1⟩, ContentBlock.toolUse ⟨i2, "Read", inp2⟩,
        ContentBlock.toolUse ⟨i3, "Read", inp3⟩] =
      Except.ok { s with pending := some (Pending.fileOp
        { type := "Read", files := [(fn, [f1.lineRange, f2.lineRange, f3.lineRange])],
          totalBytes := f1.bytes + f2.bytes + f3.bytes,
          cost := (ctx.entryCost.add ctx.entryCost).add ctx.entryCost,
          startTime := ctx.timestamp, endTime := ctx.timestamp }) } ∧
    flushPending { s with pending := some (Pending.fileOp
        { type := "Read", files := [(fn, [f1.lineRange, f2.lineRange, f3.lineRange])],
          totalBytes := f1.bytes + f2.bytes + f3.bytes,
          cost := (ctx.entryCost.add ctx.entryCost).add ctx.entryCost,
          startTime := ctx.timestamp, endTime := ctx.timestamp }) } =
      { s with
        actions := s.actions ++ [toString s.lineNum ++ ". " ++
          ("Read" ++ ": [" ++
            jsTrim (durMeta s.prevTimestamp ctx.timestamp ++
              toString (f1.bytes + f2.bytes + f3.bytes) ++ "b $" ++
              ((ctx.entryCost.add ctx.entryCost).add ctx.entryCost).toFixed4) ++ "] " ++
            (fn ++ "[" ++ f1.lineRange ++ "]" ++ ", " ++
              (fn ++ "[" ++ f2.lineRange ++ "]" ++ ", " ++
                (fn ++ "[" ++ f3.lineRange ++ "]"))))],
        lineNum := s.lineNum + 1,
        prevTimestamp := jsTsOr ctx.timestamp ctx.timestamp,
        pending := none } := by
  have hnb1 : ¬ f1.bytes < READ_SIZE_THRESHOLD := by omega
  have hnb2 : ¬ f2.bytes < READ_SIZE_THRESHOLD := by omega
  have hnb3 : ¬ f3.bytes < READ_SIZE_THRESHOLD := by omega
  constructor
  · simp only [processToolBlocks]
    rw [foldlM_except_cons_ok _ _ _ _ _ (readStep_start ctx s i1 inp1 f1 hF1 hnb1 hp)]
    rw [foldlM_except_cons_ok _ _ _ _ _ (readStep_extend ctx _ i2 inp2 f2 _ hF2 hnb2 rfl rfl)]
    rw [foldlM_except_cons_ok _ _ _ _ _ (readStep_extend ctx _ i3 inp3 f3 _ hF3 hnb3 rfl rfl)]
    rw [List.foldlM_nil]
    rw [hfn1, hfn2, hfn3]
    simp only [pushRange, if_pos, List.append_eq, List.cons_append, List.nil_append]
    rfl
  · simp only [flushPending]
    simp only [flatMapList, List.map, joinSep, List.append_nil]







/-- Witness for C5 at three concrete 3001-byte reads of one file. -/
theorem claim_C5_witness :
    READ_SIZE_THRESHOLD < c5fmt.bytes ∧
    formatReadTool ⟨"r1", "Read", c5inp⟩ (List.lookup "r1" c5ctx.toolResults) = c5fmt ∧
    processToolBlocks c5ctx initState
      [ContentBlock.toolUse ⟨"r1", "Read", c5inp⟩, ContentBlock.toolUse ⟨"r2", "Read", c5inp⟩,
        ContentBlock.toolUse ⟨"r3", "Read", c5inp⟩] = Except.ok c5mid ∧
    flushPending c5mid =
      { initState with
        actions := ["1. Read: [9003b $0.0000] main.ts[L1-L1], main.ts[L1-L1], main.ts[L1-L1]"],
        lineNum := 2 } := by
  have hlen : (String.mk (List.replicate 3001 'x')).length = 3001 :=
    List.length_replicate 3001 'x'
  have hF0 : formatReadTool ⟨"r1", "Read", c5inp⟩ (List.lookup "r1" c5ctx.toolResults) =
      ⟨"main.ts", (String.mk (List.replicate 3001 'x')).length, "L1-L1"⟩ := rfl
  rw [hlen] at hF0
  have hF1 : formatReadTool ⟨"r1", "Read", c5inp⟩ (List.lookup "r1" c5ctx.toolResults) =
      c5fmt := hF0
  have hF0b : formatReadTool ⟨"r2", "Read", c5inp⟩ (List.lookup "r2" c5ctx.toolResults) =
      ⟨"main.ts", (String.mk (List.replicate 3001 'x')).length, "L1-L1"⟩ := rfl
  rw [hlen] at hF0b
  have hF2 : formatReadTool ⟨"r2", "Read", c5inp⟩ (List.lookup "r2" c5ctx.toolResults) =
      c5fmt := hF0b
  have hF0c : formatReadTool ⟨"r3", "Read", c5inp⟩ (List.lookup "r3" c5ctx.toolResults) =
      ⟨"main.ts", (String.mk (List.replicate 3001 'x')).length, "L1-L1"⟩ := rfl
  rw [hlen] at hF0c
  have hF3 : formatReadTool ⟨"r3", "Read", c5inp⟩ (List.lookup "r3" c5ctx.toolResults) =
      c5fmt := hF0c
  have h := claim_C5 c5ctx initState "r1" "r2" "r3" c5inp c5inp c5inp c5fmt c5fmt c5fmt
    "main.ts" hF1 hF2 hF3 rfl rfl rfl (by decide) (by decide) (by decide) rfl
  exact ⟨by decide, hF1, h.1, h.2⟩



/-- C1 counterexample: a conversation with one assistant record holding
two blocklisted (Grep) tool invocations and usage produces no emitted
action, yet the compiler still emits the aggregate MessageEnd marker: the
resulting timeline is the bare marker.  This refutes the claim that the
marker appears only if the record produced at least one emitted action. -/
theorem claim_C1_counterexample :
    processConversation { entries := some [c1entry] } =
      Except.ok (some
        { file := "unknown",
          timeline := "MessageEnd #1: [in=1000000t out=1000000t $18.0000]",
          entries := [c1entry] }) := rfl

/-- C1 (amended): for every assistant record containing more than one tool
invocation and carrying usage with nonzero input and output token counts,
processing the record unconditionally appends the un-numbered aggregate
MessageEnd marker — carrying the record total usage and cost — as the last
produced entry, regardless of whether the record produced any emitted
action. -/
theorem claim_C1_amended (trs : List (String × ToolResultBlock)) (s s' : CState)
    (bs : List ContentBlock) (u : Usage) (model : Option String) (ts : Option Timestamp)
    (hhead : firstIsThinking (some ⟨some bs, some u, model⟩) = false)
    (hcount : 2 ≤ (bs.filter isToolUse).length)
    (hi : u.input_tokens ≠ 0) (ho : u.output_tokens ≠ 0)
    (hrun : processEntry trs s ⟨"assistant", some ⟨some bs, some u, model⟩, ts⟩ =
      Except.ok s') :
    ∃ (mn : Nat) (tm : String),
      s'.actions.getLast? = some ("MessageEnd #" ++ toString mn ++ ": [" ++ tm ++
        "in=" ++ toString u.input_tokens ++ "t out=" ++ toString u.output_tokens ++
        "t $" ++ (calculateCost u.input_tokens u.output_tokens model).toFixed4 ++ "]") := by
  simp only [processEntry] at hrun
  rw [if_neg (by decide : ¬ ("assistant" : String) = "user")] at hrun
  rw [if_neg (by simp [hhead])] at hrun
  simp only [if_true] at hrun
  simp only [if_pos (show u.input_tokens ≠ 0 ∧ u.output_tokens ≠ 0 from ⟨hi, ho⟩)] at hrun
  have hC1a : ((bs.filter isToolUse).length == 1) = false :=
    beq_eq_false_iff_ne.mpr (by omega)
  have hC1b : 0 < (bs.filter isToolUse).length := by omega
  split at hrun
  · simp at hrun
  · rename_i x s3 heq
    rw [if_pos ⟨hC1a, hC1b, hi, ho⟩] at hrun
    injection hrun with hs'
    subst hs'
    refine ⟨(flushPending s3).messageNum, durMeta (flushPending s3).prevTimestamp ts, ?_⟩
    dsimp only
    rw [List.getLast?_concat]


/-- Witness for the amended C1 at a concrete two-invocation record. -/
theorem claim_C1_witness :
    processEntry [] initState
      ⟨"assistant", some ⟨some c1blocks, some ⟨1000000, 1000000⟩, none⟩, none⟩ =
      Except.ok c1after ∧
    (∃ (mn : Nat) (tm : String),
      c1after.actions.getLast? = some ("MessageEnd #" ++ toString mn ++ ": [" ++ tm ++
        "in=" ++ toString (1000000 : Nat) ++ "t out=" ++ toString (1000000 : Nat) ++
        "t $" ++ (calculateCost 1000000 1000000 none).toFixed4 ++ "]")) :=
  ⟨rfl, claim_C1_amended [] initState c1after c1blocks ⟨1000000, 1000000⟩ none none
    rfl (by decide) (by decide) (by decide) rfl⟩
